import Mathlib

/-!
Shallow embedding of the geo-news bot pipeline (src/bot.py): text helpers,
translation fallback, filtering gates, the fetch and publish cycles, and the
next-send computation of the scheduler. Definitions mirror the Python source;
theorems settle the specification claims.
-/

/-- Python whitespace class used by str.strip, str.split and the regex \s. -/
def pyIsSpace (c : Char) : Bool :=
  c = ' ' || c = '\t' || c = '\n' || c = '\r' || c = '\x0b' || c = '\x0c'

/-- Python str.strip on a character list: drop whitespace from both ends. -/
def pyStripL (cs : List Char) : List Char :=
  ((cs.dropWhile pyIsSpace).reverse.dropWhile pyIsSpace).reverse

/-- Python str.strip on a string. -/
def pyStrip (s : String) : String :=
  (pyStripL s.toList).asString

/-- Python str.lower (ASCII fragment), character by character. -/
def pyLower (s : String) : String :=
  (s.toList.map Char.toLower).asString

/-- Substring containment on character lists: the Python test `sub in s`. -/
def hasSubL (cs sub : List Char) : Bool :=
  match cs with
  | [] => sub.isEmpty
  | _ :: rest => sub.isPrefixOf cs || hasSubL rest sub

/-- Substring containment on strings: the Python test `sub in s`. -/
def hasSub (s sub : String) : Bool :=
  hasSubL s.toList sub.toList

/-- The characters escaped by escape_markdown_v2 in src/bot.py line 101. -/
def escape_chars : List Char :=
  "_*[]()~`>#+-=|\x7b\x7d.!".toList

/-- One re.sub pass: each escapable character is prefixed with a backslash. -/
def escapeL (cs : List Char) : List Char :=
  (cs.map (fun c => if c ∈ escape_chars then ['\\', c] else [c])).flatten

/-- escape_markdown_v2 from src/bot.py lines 100-102. -/
def escape_markdown_v2 (text : String) : String :=
  (escapeL text.toList).asString

/-- Spec-side restatement of the escape transform: backslash-prefix every
occurrence of an escapable character, recursively over the text. -/
def escape_spec : List Char → List Char
  | [] => []
  | c :: rest =>
      if c ∈ escape_chars then '\\' :: c :: escape_spec rest
      else c :: escape_spec rest

/-- The fixed boilerplate phrase list of is_generic_description (bot.py 105). -/
def generic_phrases : List String :=
  ["appeared first on", "read more", "click here", "continue reading",
   "©", "All rights reserved"]

/-- is_generic_description from src/bot.py lines 104-106: any phrase of the
fixed list occurring in the lowercased description. -/
def is_generic_description (desc : String) : Bool :=
  generic_phrases.any (fun phrase => hasSub (pyLower desc) phrase)

/-- Does this character end a sentence for the lead splitter (class [.!?])? -/
def sentEnd : Option Char → Bool
  | some '.' => true
  | some '!' => true
  | some '?' => true
  | _ => false

/-- State machine for re.split with the pattern (?<=[.!?])\s+ : a separator is a maximal
whitespace run whose immediately preceding character is in [.!?].  `prev` is
the previous character, `acc` the current piece reversed, `inSep` whether we
are inside a separator run. -/
def splitSM (prev : Option Char) (acc : List Char) (inSep : Bool) :
    List Char → List (List Char)
  | [] => [acc.reverse]
  | c :: rest =>
      if inSep then
        if pyIsSpace c then splitSM (some c) acc true rest
        else splitSM (some c) [c] false rest
      else if pyIsSpace c && sentEnd prev then
        acc.reverse :: splitSM (some c) [] true rest
      else
        splitSM (some c) (c :: acc) false rest

/-- re.split with the pattern (?<=[.!?])\s+ applied to a string (bot.py line 109). -/
def splitSentences (s : String) : List String :=
  (splitSM none [] false s.toList).map List.asString

/-- Python slicing s[:n]: the first n characters (code points). -/
def pyTake (s : String) (n : Nat) : String :=
  (s.toList.take n).asString

/-- get_lead from src/bot.py lines 108-112. -/
def get_lead (desc : String) : String :=
  let sentences := splitSentences (pyStrip desc)
  match sentences with
  | [] => pyStrip (pyTake desc 300)
  | s0 :: _ =>
      if pyStrip s0 = "" then pyStrip (pyTake desc 300) else pyStrip s0

/-- Regex word character \w (ASCII fragment): letters, digits, underscore. -/
def isWordChar (c : Char) : Bool :=
  c.isAlphanum || c = '_'

/-- A \b word boundary holds before the current position. -/
def boundaryB : Option Char → Bool
  | none => true
  | some c => !isWordChar c

/-- A \b word boundary holds after the matched word. -/
def boundaryA : List Char → Bool
  | [] => true
  | c :: _ => !isWordChar c

/-- Search for the word `w` with \b boundaries on both sides, scanning `cs`
with `prev` the character just before the current position. -/
def hasWordAux (w : List Char) (prev : Option Char) (cs : List Char) : Bool :=
  (boundaryB prev && w.isPrefixOf cs && boundaryA (cs.drop w.length)) ||
  (match cs with
   | [] => false
   | c :: rest => hasWordAux w (some c) rest)

/-- Does the text contain the word with \b boundaries on both sides? -/
def hasWordBounded (cs w : List Char) : Bool :=
  hasWordAux w none cs

/-- Match of nord\s?stream at the current position, boundary after. -/
def nordStreamHere (cs : List Char) : Bool :=
  "nord".toList.isPrefixOf cs &&
    (let rest := cs.drop 4
     ("stream".toList.isPrefixOf rest && boundaryA (rest.drop 6)) ||
     (match rest with
      | c :: r2 =>
          pyIsSpace c && "stream".toList.isPrefixOf r2 && boundaryA (r2.drop 6)
      | [] => false))

/-- Search for \bnord\s?stream\b anywhere in the text. -/
def nordStreamAux (prev : Option Char) (cs : List Char) : Bool :=
  (boundaryB prev && nordStreamHere cs) ||
  (match cs with
   | [] => false
   | c :: rest => nordStreamAux (some c) rest)

/-- The plain \bword\b patterns of KEYWORDS_PATTERNS (bot.py 53-59); the two
patterns with regex structure, sanction[s]? and nord\s?stream, are expanded
separately in contains_keywords. -/
def keyword_words : List String :=
  ["russia", "russian", "putin", "ukraine", "zelensky", "kremlin", "moscow",
   "gazprom", "wagner", "lavrov", "nato", "war", "ukrainian", "kyiv", "kiev",
   "crimea", "donbas", "energy", "oil", "gas", "grain", "eu", "usa"]

/-- contains_keywords from src/bot.py lines 61-63: some pattern matches the
lowercased text. -/
def contains_keywords (text : String) : Bool :=
  let cs := (pyLower text).toList
  keyword_words.any (fun w => hasWordBounded cs w.toList) ||
  hasWordBounded cs "sanction".toList ||
  hasWordBounded cs "sanctions".toList ||
  hasWordBounded cs "nordstream".toList ||
  nordStreamAux none cs

/-- Python str.split with no arguments: split on whitespace runs, no empties. -/
def pySplitWsAux (acc : List Char) : List Char → List (List Char)
  | [] => if acc.isEmpty then [] else [acc.reverse]
  | c :: rest =>
      if pyIsSpace c then
        if acc.isEmpty then pySplitWsAux [] rest
        else acc.reverse :: pySplitWsAux [] rest
      else pySplitWsAux (c :: acc) rest

/-- get_prefix from src/bot.py lines 65-79. -/
def get_prefix (name : String) : String :=
  let n := pyLower name
  if hasSub n "e3g" then "e3g"
  else if hasSub n "foreign affairs" then "foreignaffairs"
  else if hasSub n "reuters" then "reuters"
  else if hasSub n "bruegel" then "bruegel"
  else if hasSub n "chatham" then "chathamhouse"
  else if hasSub n "csis" then "csis"
  else if hasSub n "atlantic" then "atlanticcouncil"
  else if hasSub n "rand" then "rand"
  else if hasSub n "cfr" then "cfr"
  else if hasSub n "carnegie" then "carnegie"
  else if hasSub n "economist" then "economist"
  else if hasSub n "bloomberg" then "bloomberg"
  else
    (((pySplitWsAux [] n.toList).headD []).filter
      (fun c => ('a' ≤ c && c ≤ 'z') || ('0' ≤ c && c ≤ '9'))).asString

/-- translate_with_fallback from src/bot.py lines 81-98.  A backend is a
function String → Option String: `none` models a raised exception, `some t`
a returned text (a backend returning Python None behaves like `some ""`,
both are falsy and fall through). -/
def translate_with_fallback (p s : String → Option String) (text : String) :
    String :=
  let stripped := pyStrip text
  let second :=
    match s stripped with
    | some t => if pyStrip t = "" then "" else pyStrip t
    | none => ""
  if stripped = "" then ""
  else
    match p stripped with
    | some t => if pyStrip t = "" then second else pyStrip t
    | none => second

/-- urllib.parse.urldefrag, first component: cut the URL at the first '#'. -/
def urldefrag (s : String) : String :=
  (s.toList.takeWhile (fun c => c ≠ '#')).asString

/-- The freshness gate of src/bot.py lines 152-157: skip when the publication
time is absent or earlier than now minus 40 minutes (2400 seconds). -/
def freshness_pass (now : Int) (pub : Option Int) : Bool :=
  match pub with
  | none => false
  | some t => if t < now - 2400 then false else true

/-- A raw feed entry as consumed by fetch_articles_for_window. -/
structure Entry where
  published : Option Int
  link : String
  title : String
  summary : String
deriving DecidableEq

/-- A staged article tuple (prefix, title, lead, url) from bot.py line 187. -/
structure StagedItem where
  pfx : String
  title : String
  lead : String
  url : String
deriving DecidableEq

/-- The shared mutable state: seen_urls (bot.py 114) and pending_articles
(bot.py 115). -/
structure BotState where
  seen : List String
  pending : List StagedItem
deriving DecidableEq

/-- The per-entry gate chain of fetch_articles_for_window, bot.py 152-188:
freshness, nonempty link, dedup against seen, nonempty title and
description, non-generic description, keyword relevance, translatability. -/
def entryGate (now : Int) (seen : List String) (p s : String → Option String)
    (name : String) (e : Entry) : Option StagedItem :=
  if !freshness_pass now e.published then none
  else if pyStrip e.link = "" then none
  else if urldefrag (pyStrip e.link) ∈ seen then none
  else if pyStrip e.title = "" then none
  else if pyStrip e.summary = "" then none
  else if is_generic_description (pyStrip e.summary) then none
  else if !contains_keywords (pyStrip e.title ++ " " ++ pyStrip e.summary) then
    none
  else if translate_with_fallback p s (pyStrip e.title) = "" then none
  else if translate_with_fallback p s (get_lead (pyStrip e.summary)) = "" then
    none
  else
    some ⟨ get_prefix name, pyStrip e.title, get_lead (pyStrip e.summary),
           urldefrag (pyStrip e.link)⟩

/-- The scan of one source in fetch_articles_for_window: `none` in the second
component models a fetch failure or an empty entry list (bot.py 147-150,
190-191); otherwise stage the first entry surviving all gates (bot.py
152-188, the break on line 188). -/
def scan_source (now : Int) (seen : List String) (p s : String → Option String)
    (src : String × Option (List Entry)) : Option StagedItem :=
  match src.2 with
  | none => none
  | some entries => entries.findSome? (entryGate now seen p s src.1)

/-- fetch_articles_for_window from src/bot.py lines 138-198: collect at most
one staged item per source against the start-of-cycle seen set, then commit:
pending_articles is replaced by the new batch and the batch URLs are added
to seen_urls (bot.py 193-196). -/
def fetch_articles_for_window (now : Int) (p s : String → Option String)
    (sources : List (String × Option (List Entry))) (st : BotState) : BotState :=
  let new_articles := sources.filterMap (scan_source now st.seen p s)
  { seen := st.seen ++ new_articles.map (fun it => it.url),
    pending := new_articles }

/-- The message composed at src/bot.py lines 216-220. -/
def compose_message (it : StagedItem) (title_ru lead_ru : String) : String :=
  it.pfx ++ ": " ++ title_ru ++ "\n\n" ++ lead_ru ++ "\n\n[Источник](" ++
    it.url ++ ")"

/-- send_pending_articles from src/bot.py lines 200-231: atomically drain
pending_articles, then for each item re-translate, skip on empty translation,
otherwise submit the escaped composed message.  Returns the submitted
messages in order together with the new state (pending cleared, seen
untouched). -/
def send_pending_articles (p s : String → Option String) (st : BotState) :
    List String × BotState :=
  let msgs := st.pending.filterMap (fun it =>
    let title_ru := translate_with_fallback p s it.title
    let lead_ru := translate_with_fallback p s it.lead
    if title_ru = "" || lead_ru = "" then none
    else some (escape_markdown_v2 (compose_message it title_ru lead_ru)))
  (msgs, { st with pending := [] })

/-- The next send instant computed by schedule_send_loop, bot.py 242-252,
over absolute time in seconds: minute 30 of the current hour when the
current minute is below 30, else minute 0 of the next hour. -/
def next_send (now : Nat) : Nat :=
  if (now / 60) % 60 < 30 then now / 3600 * 3600 + 30 * 60
  else (now + 3600) / 3600 * 3600

/-- The sleep period of the keep_alive_activity fetch loop, bot.py 240. -/
def keep_alive_period : Nat := 14 * 60

/-! ### Concrete data used by closed theorems -/

/-- A fresh, relevant, non-generic, translatable feed entry. -/
def eDup : Entry :=
  ⟨some 1000000, "https://x/a#frag", "Russia sanctions",
   "Moscow announced sanctions today. More details follow."⟩

/-- The staged item produced from eDup when every gate passes. -/
def itDup : StagedItem :=
  ⟨"e3g", "Russia sanctions", "Moscow announced sanctions today.",
   "https://x/a"⟩

/-! ### Helper lemmas about the fetch cycle -/

/-- Inversion for a successful entry gate: the staged item records the
canonical URL, which was not in the seen set, the stripped title, the lead of
the stripped description, and both translations were nonempty. -/
theorem entryGate_eq_some {now : Int} {seen : List String}
    {p s : String → Option String} {name : String} {e : Entry}
    {it : StagedItem} (h : entryGate now seen p s name e = some it) :
    it.url = urldefrag (pyStrip e.link) ∧ it.url ∉ seen ∧
    it.title = pyStrip e.title ∧ it.lead = get_lead (pyStrip e.summary) ∧
    translate_with_fallback p s it.title ≠ "" ∧
    translate_with_fallback p s it.lead ≠ "" ∧
    freshness_pass now e.published = true := by
  unfold entryGate at h
  repeat' split at h
  any_goals exact Option.noConfusion h
  obtain rfl := Option.some.inj h
  simp_all

/-- Any staged item produced by a scan of one source comes from some entry
that passed the gate. -/
theorem scan_source_eq_some {now : Int} {seen : List String}
    {p s : String → Option String} {src : String × Option (List Entry)}
    {it : StagedItem} (h : scan_source now seen p s src = some it) :
    ∃ entries, src.2 = some entries ∧
      ∃ e ∈ entries, entryGate now seen p s src.1 e = some it := by
  unfold scan_source at h
  split at h
  · exact absurd h (by simp)
  · next entries heq =>
    obtain ⟨l₁, a, l₂, hl, ha, -⟩ := List.findSome?_eq_some_iff.mp h
    exact ⟨entries, heq, a, by simp [hl], ha⟩

/-! ### Claim theorems -/

/-- C1: a canonical URL already in the seen set at the start of a fetch
cycle is never staged into the pending queue by that cycle; the seen set is
append-only: the fetch cycle only extends it and the publish cycle leaves it
unchanged. -/
theorem C1_seen_never_restaged (now : Int) (p s : String → Option String)
    (srcs : List (String × Option (List Entry))) (st : BotState) (u : String)
    (hu : u ∈ st.seen) :
    (∀ it ∈ (fetch_articles_for_window now p s srcs st).pending,
      it.url ≠ u) ∧
    st.seen ⊆ (fetch_articles_for_window now p s srcs st).seen ∧
    (send_pending_articles p s st).2.seen = st.seen := by
  refine ⟨?_, ?_, rfl⟩
  · intro it hit
    simp only [fetch_articles_for_window] at hit
    rw [List.mem_filterMap] at hit
    obtain ⟨src, -, hscan⟩ := hit
    obtain ⟨entries, -, e, -, hgate⟩ := scan_source_eq_some hscan
    intro hcontra
    exact (entryGate_eq_some hgate).2.1 (hcontra ▸ hu)
  · simp only [fetch_articles_for_window]
    exact List.subset_append_left _ _

/-- C1 witness: with the URL of eDup already seen, a concrete fetch cycle
stages nothing with that URL, keeps the old seen set, and the publish cycle
leaves the seen set unchanged. -/
theorem C1_seen_never_restaged_witness :
    "https://x/a" ∈ (BotState.mk ["https://x/a"] []).seen ∧
    ((∀ it ∈ (fetch_articles_for_window 1000000 (fun t => some t)
        (fun t => some t) [("E3G", some [eDup])]
        ⟨["https://x/a"], []⟩).pending, it.url ≠ "https://x/a") ∧
      (BotState.mk ["https://x/a"] []).seen ⊆
        (fetch_articles_for_window 1000000 (fun t => some t) (fun t => some t)
          [("E3G", some [eDup])] ⟨["https://x/a"], []⟩).seen ∧
      (send_pending_articles (fun t => some t) (fun t => some t)
        ⟨["https://x/a"], []⟩).2.seen = ["https://x/a"]) :=
  ⟨by decide,
   C1_seen_never_restaged 1000000 (fun t => some t) (fun t => some t)
     [("E3G", some [eDup])] ⟨["https://x/a"], []⟩ "https://x/a" (by decide)⟩

/-- C3: the duplicate check consults only the seen set committed by earlier
cycles, so two sources returning the same fresh relevant entry in one cycle
stage two items with the same canonical URL in one batch. -/
theorem C3_same_cycle_duplicate :
    (BotState.mk [] []).seen = [] ∧
    ((fetch_articles_for_window 1000000 (fun t => some t) (fun t => some t)
        [("E3G", some [eDup]), ("CSIS", some [eDup])] ⟨[], []⟩).pending.map
      (fun it => it.url)) = ["https://x/a", "https://x/a"] := by
  decide

/-- C6: each fetch cycle stages at most one item per source, the first entry
in feed order that survives all gates, independently of the entries after
it, so the committed batch size is at most the number of sources. -/
theorem C6_at_most_one_per_source (now : Int) (p s : String → Option String)
    (srcs : List (String × Option (List Entry))) (st : BotState) :
    (fetch_articles_for_window now p s srcs st).pending.length ≤
      srcs.length ∧
    ∀ (name : String) (es₁ es₂ : List Entry) (e : Entry) (it : StagedItem),
      (∀ e1 ∈ es₁, entryGate now st.seen p s name e1 = none) →
      entryGate now st.seen p s name e = some it →
      scan_source now st.seen p s (name, some (es₁ ++ e :: es₂)) = some it := by
  constructor
  · simpa [fetch_articles_for_window] using
      List.length_filterMap_le (scan_source now st.seen p s) srcs
  · intro name es₁ es₂ e it h1 h2
    show (es₁ ++ e :: es₂).findSome? (entryGate now st.seen p s name) = some it
    exact List.findSome?_eq_some_iff.mpr ⟨es₁, e, es₂, rfl, h2, h1⟩

/-- C6 witness: the concrete entry eDup passes the gate and is the item
staged by its source. -/
theorem C6_at_most_one_per_source_witness :
    entryGate 1000000 [] (fun t => some t) (fun t => some t) "E3G" eDup =
      some itDup ∧
    scan_source 1000000 [] (fun t => some t) (fun t => some t)
      ("E3G", some [eDup]) = some itDup :=
  ⟨by decide,
   (C6_at_most_one_per_source 1000000 (fun t => some t) (fun t => some t)
      [("E3G", some [eDup])] ⟨[], []⟩).2 "E3G" [] [] eDup itDup
     (by intro e1 h1; exact absurd h1 (List.not_mem_nil e1)) (by decide)⟩

/-- C7: an entry with no publication timestamp, or published earlier than
40 minutes (2400 seconds) before now, is excluded; one published within the
last 40 minutes passes the freshness gate. -/
theorem C7_freshness_window (now t : Int) (seen : List String)
    (p s : String → Option String) (name : String) (e : Entry) :
    (e.published = none → entryGate now seen p s name e = none) ∧
    (e.published = some t → t < now - 2400 →
      entryGate now seen p s name e = none) ∧
    (now - 2400 < t → freshness_pass now (some t) = true) := by
  refine ⟨?_, ?_, ?_⟩
  · intro h
    unfold entryGate
    rw [h]
    simp [freshness_pass]
  · intro h hlt
    unfold entryGate
    rw [h]
    simp [freshness_pass, hlt]
  · intro h
    show (if t < now - 2400 then false else true) = true
    rw [if_neg (by omega)]

/-- C7 witness: a timestampless entry and one 41 minutes old are excluded;
a publication instant 39 minutes old passes the freshness check. -/
theorem C7_freshness_window_witness :
    entryGate 0 [] (fun _ => none) (fun _ => none) "X" ⟨none, "", "", ""⟩ =
      none ∧
    entryGate 0 [] (fun _ => none) (fun _ => none) "X"
      ⟨some (-2460), "", "", ""⟩ = none ∧
    freshness_pass 0 (some (-2340)) = true :=
  ⟨(C7_freshness_window 0 0 [] (fun _ => none) (fun _ => none) "X"
      ⟨none, "", "", ""⟩).1 rfl,
   (C7_freshness_window 0 (-2460) [] (fun _ => none) (fun _ => none) "X"
      ⟨some (-2460), "", "", ""⟩).2.1 rfl (by decide),
   (C7_freshness_window 0 (-2340) [] (fun _ => none) (fun _ => none) "X"
      ⟨none, "", "", ""⟩).2.2 (by decide)⟩

/-- C2 counterexample: at second 300 of an hour (minute 5) the scheduler
loop computes the next instant at minute 30, not at a boundary from the
pair of minutes 20 and 50 that the claim states. -/
theorem C2_not_a_20_50_boundary :
    next_send 300 = 1800 ∧ next_send 300 / 60 % 60 ≠ 20 ∧
    next_send 300 / 60 % 60 ≠ 50 := by decide

/-- C2 amended: the scheduler loop computes the next send instant as the
nearest strictly future minute-of-hour boundary from the pair of minutes
0 and 30, that is the next multiple of 1800 seconds, and launches only the
Publish Cycle there; the Fetch Cycle runs on a separate keep-alive loop
with a fixed 14 minute sleep. -/
theorem C2_publish_boundary (now : Nat) :
    next_send now = (now / 1800 + 1) * 1800 ∧
    next_send now % 1800 = 0 ∧ now < next_send now ∧
    (∀ u : Nat, now < u → u < next_send now → u % 1800 ≠ 0) ∧
    keep_alive_period = 14 * 60 := by
  have h : next_send now = (now / 1800 + 1) * 1800 := by
    unfold next_send
    split <;> omega
  refine ⟨h, by rw [h]; omega, by rw [h]; omega, ?_, rfl⟩
  intro u h1 h2
  rw [h] at h2
  omega

/-- C2 witness: at second 300 the computed instant is 1800, strictly in the
future, and the intermediate instant 900 is not a half-hour boundary. -/
theorem C2_publish_boundary_witness :
    next_send 300 = 1800 ∧ (300 : Nat) < next_send 300 ∧
    (900 : Nat) % 1800 ≠ 0 :=
  ⟨(C2_publish_boundary 300).1.trans (by decide),
   (C2_publish_boundary 300).2.2.1,
   (C2_publish_boundary 300).2.2.2.1 900 (by decide) (by decide)⟩

/-- C5 counterexample: when both translation backends fail, a fetch cycle
drops the entry without marking its URL seen, and a later cycle with
working backends stages the same entry again. -/
theorem C5_dropped_item_reappears :
    (fetch_articles_for_window 1000000 (fun _ => none) (fun _ => none)
        [("E3G", some [eDup])] ⟨[], []⟩).seen = [] ∧
    (fetch_articles_for_window 1000000 (fun _ => none) (fun _ => none)
        [("E3G", some [eDup])] ⟨[], []⟩).pending = [] ∧
    ((fetch_articles_for_window 1000000 (fun t => some t) (fun t => some t)
        [("E3G", some [eDup])]
        (fetch_articles_for_window 1000000 (fun _ => none) (fun _ => none)
          [("E3G", some [eDup])] ⟨[], []⟩)).pending.map
      (fun it => it.url)) = ["https://x/a"] := by decide

/-- C5 amended: an entry whose title or lead translation totally fails
during the fetch cycle is not staged and its URL is not added to the seen
set (only staged URLs are committed), so it can be reconsidered later; an
item dropped at publish time is never requeued (the pending queue is left
empty) and its URL was already committed to the seen set at staging. -/
theorem C5_translation_failure_drop (now : Int) (p s : String → Option String)
    (srcs : List (String × Option (List Entry))) (st : BotState)
    (seen2 : List String) (name : String) (e : Entry) :
    (translate_with_fallback p s (pyStrip e.title) = "" →
      entryGate now seen2 p s name e = none) ∧
    (translate_with_fallback p s (get_lead (pyStrip e.summary)) = "" →
      entryGate now seen2 p s name e = none) ∧
    (fetch_articles_for_window now p s srcs st).seen =
      st.seen ++
        (fetch_articles_for_window now p s srcs st).pending.map
          (fun it => it.url) ∧
    (∀ it ∈ (fetch_articles_for_window now p s srcs st).pending,
      it.url ∈ (fetch_articles_for_window now p s srcs st).seen) ∧
    (send_pending_articles p s st).2.pending = [] := by
  refine ⟨?_, ?_, rfl, ?_, rfl⟩
  · intro h
    cases hE : entryGate now seen2 p s name e with
    | none => rfl
    | some it =>
        obtain ⟨-, -, ht, -, hne, -, -⟩ := entryGate_eq_some hE
        exact absurd (ht ▸ h) hne
  · intro h
    cases hE : entryGate now seen2 p s name e with
    | none => rfl
    | some it =>
        obtain ⟨-, -, -, hl, -, hne, -⟩ := entryGate_eq_some hE
        exact absurd (hl ▸ h) hne
  · intro it hit
    simp only [fetch_articles_for_window]
    exact List.mem_append_right _ (List.mem_map_of_mem (fun x => x.url) hit)

/-- C5 witness: with both backends failing, the concrete entry eDup is
rejected by the gate. -/
theorem C5_translation_failure_drop_witness :
    translate_with_fallback (fun _ => none) (fun _ => none)
      (pyStrip eDup.title) = "" ∧
    entryGate 1000000 [] (fun _ => none) (fun _ => none) "E3G" eDup = none :=
  ⟨by decide,
   (C5_translation_failure_drop 1000000 (fun _ => none) (fun _ => none) []
      ⟨[], []⟩ [] "E3G" eDup).1 (by decide)⟩

/-- C8: the boilerplate list contains the phrase "All rights reserved", and
a description equal to that very phrase contains it as a substring, yet the
detector returns false, because the description is lowercased before the
comparison while the phrase keeps its capital letters; the lowercase
phrases such as "read more" are detected. -/
theorem C8_generic_detector_eval :
    "All rights reserved" ∈ generic_phrases ∧
    hasSub "All rights reserved" "All rights reserved" = true ∧
    is_generic_description "All rights reserved" = false ∧
    is_generic_description "Read more..." = true := by decide

/-- C4 counterexample: the primary backend raises and the secondary backend
succeeds with output " ok ", yet the result is the stripped "ok", not the
secondary output itself. -/
theorem C4_secondary_output_not_verbatim :
    translate_with_fallback (fun _ => none) (fun _ => some " ok ") "x" =
      "ok" ∧
    ("ok" : String) ≠ " ok " := by decide

/-- C4 amended: empty or whitespace-only input yields the empty string for
every pair of backends; when the primary backend raises or returns an
effectively empty text and the secondary backend returns a text with
nonempty strip, the result is the secondary output stripped of surrounding
whitespace; when both backends fail this way, the result is the empty
string.  The function is total, so no exception reaches the caller. -/
theorem C4_translate_contract (p s : String → Option String) (text : String) :
    (pyStrip text = "" → translate_with_fallback p s text = "") ∧
    (∀ u : String, pyStrip text ≠ "" →
      (p (pyStrip text) = none ∨
        ∃ v, p (pyStrip text) = some v ∧ pyStrip v = "") →
      s (pyStrip text) = some u → pyStrip u ≠ "" →
      translate_with_fallback p s text = pyStrip u) ∧
    ((p (pyStrip text) = none ∨
        ∃ v, p (pyStrip text) = some v ∧ pyStrip v = "") →
      (s (pyStrip text) = none ∨
        ∃ w, s (pyStrip text) = some w ∧ pyStrip w = "") →
      translate_with_fallback p s text = "") := by
  have hval : translate_with_fallback p s text =
      (if pyStrip text = "" then ""
       else
         match p (pyStrip text) with
         | some t =>
             if pyStrip t = "" then
               (match s (pyStrip text) with
                | some t2 => if pyStrip t2 = "" then "" else pyStrip t2
                | none => "")
             else pyStrip t
         | none =>
             match s (pyStrip text) with
             | some t2 => if pyStrip t2 = "" then "" else pyStrip t2
             | none => "") := rfl
  refine ⟨?_, ?_, ?_⟩
  · intro h
    rw [hval, if_pos h]
  · intro u hne hp hs hu
    rcases hp with hp | ⟨v, hpv, hv⟩
    · simp [hval, if_neg hne, hp, hs, if_neg hu]
    · simp [hval, if_neg hne, hpv, hv, hs, if_neg hu]
  · intro hp hs
    by_cases hne : pyStrip text = ""
    · rw [hval, if_pos hne]
    · rcases hp with hp | ⟨v, hpv, hv⟩ <;>
        rcases hs with hs | ⟨w, hsw, hw⟩ <;>
        simp [hval, if_neg hne, *]

/-- C4 witness: concrete runs of the three contract branches. -/
theorem C4_translate_contract_witness :
    pyStrip "  " = "" ∧
    translate_with_fallback (fun _ => none) (fun _ => some " ok ") "  " =
      "" ∧
    translate_with_fallback (fun _ => none) (fun _ => some " ok ") "x" =
      "ok" ∧
    translate_with_fallback (fun _ => none) (fun _ => none) "x" = "" :=
  ⟨by decide,
   (C4_translate_contract (fun _ => none) (fun _ => some " ok ") "  ").1
     (by decide),
   ((C4_translate_contract (fun _ => none) (fun _ => some " ok ") "x").2.1
      " ok " (by decide) (Or.inl rfl) rfl (by decide)).trans (by decide),
   (C4_translate_contract (fun _ => none) (fun _ => none) "x").2.2
     (Or.inl rfl) (Or.inl rfl)⟩

/-- The single-pass substitution of escape_markdown_v2 agrees with the
recursive spec-side escape transform. -/
theorem escapeL_eq_escape_spec (cs : List Char) :
    escapeL cs = escape_spec cs := by
  induction cs with
  | nil => rfl
  | cons c rest ih =>
      have step : escapeL (c :: rest) =
          (if c ∈ escape_chars then ['\\', c] else [c]) ++ escapeL rest := rfl
      rw [step, ih]
      by_cases h : c ∈ escape_chars
      · rw [if_pos h]
        simp [escape_spec, h]
      · rw [if_neg h]
        simp [escape_spec, h]

/-- escape_markdown_v2 equals the spec-side escape transform. -/
theorem escape_markdown_v2_eq_spec (text : String) :
    escape_markdown_v2 text = (escape_spec text.toList).asString := by
  unfold escape_markdown_v2
  rw [escapeL_eq_escape_spec]

/-- C10 counterexample: the composed message uses the literal link label
"Источник", so the submitted message differs from the claimed template with
link label "Source" on a concrete staged item. -/
theorem C10_link_label_cex :
    (send_pending_articles (fun t => some t) (fun t => some t)
        ⟨[], [⟨"e3g", "Title", "Lead", "https://x/a"⟩]⟩).1 =
      [escape_markdown_v2 "e3g: Title\n\nLead\n\n[Источник](https://x/a)"] ∧
    (send_pending_articles (fun t => some t) (fun t => some t)
        ⟨[], [⟨"e3g", "Title", "Lead", "https://x/a"⟩]⟩).1 ≠
      [escape_markdown_v2 "e3g: Title\n\nLead\n\n[Source](https://x/a)"] := by
  decide

/-- C10 amended: every submitted message is the composed template with the
source prefix, the two translated texts, and the link labelled "Источник"
around the canonical URL, transformed by backslash-prefixing every
occurrence of each character of the fixed escape set anywhere in the
message. -/
theorem C10_message_format (p s : String → Option String) (st : BotState) :
    (send_pending_articles p s st).1 = st.pending.filterMap (fun it =>
      let t := translate_with_fallback p s it.title
      let l := translate_with_fallback p s it.lead
      if t = "" || l = "" then none
      else
        some ((escape_spec (it.pfx ++ ": " ++ t ++ "\n\n" ++ l ++
          "\n\n[Источник](" ++ it.url ++ ")").toList).asString)) := by
  refine List.filterMap_congr ?_
  intro it _
  by_cases h1 : translate_with_fallback p s it.title = "" <;>
    by_cases h2 : translate_with_fallback p s it.lead = "" <;>
    simp [h1, h2, compose_message, escape_markdown_v2_eq_spec]

/-! ### Lemmas about the sentence splitter and stripping -/

/-- The sentence splitter always returns at least one piece. -/
theorem splitSM_ne_nil (prev : Option Char) (acc : List Char) (inSep : Bool)
    (cs : List Char) : splitSM prev acc inSep cs ≠ [] := by
  induction cs generalizing prev acc inSep with
  | nil => simp [splitSM]
  | cons c rest ih =>
      unfold splitSM
      split
      · split
        · exact ih _ _ _
        · exact ih _ _ _
      · split
        · simp
        · exact ih _ _ _

/-- Outside a separator, the first returned piece extends the accumulator. -/
theorem splitSM_head_append (cs : List Char) :
    ∀ (prev : Option Char) (acc : List Char),
      ∃ t1, (splitSM prev acc false cs).headD [] = acc.reverse ++ t1 := by
  induction cs with
  | nil =>
      intro prev acc
      exact ⟨[], by simp [splitSM]⟩
  | cons c rest ih =>
      intro prev acc
      by_cases hsep : pyIsSpace c && sentEnd prev
      · refine ⟨[], ?_⟩
        simp [splitSM, hsep]
      · obtain ⟨t1, ht⟩ := ih (some c) (c :: acc)
        refine ⟨c :: t1, ?_⟩
        rw [show splitSM prev acc false (c :: rest) =
              splitSM (some c) (c :: acc) false rest by
            simp [splitSM, hsep], ht]
        simp

/-- The head of a dropWhile result falsifies the predicate. -/
theorem dropWhile_head_false {α : Type} (q : α → Bool) :
    ∀ (l : List α) (a : α) (l2 : List α),
      l.dropWhile q = a :: l2 → q a = false := by
  intro l
  induction l with
  | nil =>
      intro a l2 h
      simp [List.dropWhile] at h
  | cons b rest ih =>
      intro a l2 h
      rw [List.dropWhile_cons] at h
      split at h
      · exact ih _ _ h
      · next hb =>
        obtain ⟨rfl, -⟩ := List.cons.inj h
        exact Bool.not_eq_true _ ▸ Bool.of_not_eq_true hb

/-- An element falsifying the predicate survives dropWhile. -/
theorem mem_dropWhile_of_mem {α : Type} {q : α → Bool} :
    ∀ {l : List α} {c : α}, c ∈ l → q c = false → c ∈ l.dropWhile q := by
  intro l
  induction l with
  | nil =>
      intro c h
      simp at h
  | cons b rest ih =>
      intro c hm hq
      rw [List.dropWhile_cons]
      split
      · next hb =>
        rcases List.mem_cons.mp hm with rfl | hm2
        · rw [hq] at hb
          simp at hb
        · exact ih hm2 hq
      · exact hm

/-- A list containing a non-whitespace character strips to a nonempty list. -/
theorem pyStripL_ne_nil {cs : List Char} {c : Char} (hm : c ∈ cs)
    (hs : pyIsSpace c = false) : pyStripL cs ≠ [] := by
  intro h
  unfold pyStripL at h
  rw [List.reverse_eq_nil_iff, List.dropWhile_eq_nil_iff] at h
  have hc : c ∈ cs.dropWhile pyIsSpace := mem_dropWhile_of_mem hm hs
  have := h c (List.mem_reverse.mpr hc)
  rw [hs] at this
  exact Bool.false_ne_true this

/-- A list of whitespace characters strips to the empty list. -/
theorem pyStripL_eq_nil_of_all_space {cs : List Char}
    (h : ∀ c ∈ cs, pyIsSpace c = true) : pyStripL cs = [] := by
  unfold pyStripL
  rw [List.dropWhile_eq_nil_iff.mpr h]
  rfl

/-- A list that strips to the empty list is all whitespace. -/
theorem all_space_of_pyStripL_eq_nil {cs : List Char}
    (h : pyStripL cs = []) : ∀ c ∈ cs, pyIsSpace c = true := by
  intro c hm
  by_contra hc
  exact pyStripL_ne_nil hm (Bool.of_not_eq_true hc) h

/-- The first character of a stripped list is not whitespace. -/
theorem pyStripL_head_not_space {cs : List Char} {d : Char} {ds : List Char}
    (h : pyStripL cs = d :: ds) : pyIsSpace d = false := by
  unfold pyStripL at h
  have hsuf : (cs.dropWhile pyIsSpace).reverse.dropWhile pyIsSpace <:+
      (cs.dropWhile pyIsSpace).reverse := List.dropWhile_suffix _
  rw [show (cs.dropWhile pyIsSpace).reverse.dropWhile pyIsSpace =
        ((cs.dropWhile pyIsSpace).reverse.dropWhile pyIsSpace).reverse.reverse
      by simp] at hsuf
  have hpre := List.reverse_suffix.mp hsuf
  obtain ⟨t2, ht2⟩ := hpre
  rw [h, List.cons_append] at ht2
  exact dropWhile_head_false pyIsSpace cs d _ ht2.symm

/-- C9: get_lead splits the trimmed description on sentence-ending
punctuation followed by whitespace and returns the first sentence stripped
when it is nonempty; otherwise it returns the first 300 characters of the
trimmed text (both sides are then empty, since the fallback is reachable
only for all-whitespace input). -/
theorem C9_get_lead_first_sentence (desc : String) :
    get_lead desc =
      (if pyStrip ((splitSentences (pyStrip desc)).headD "") = "" then
        pyTake (pyStrip desc) 300
      else pyStrip ((splitSentences (pyStrip desc)).headD "")) := by
  cases hsm : splitSM none [] false (pyStrip desc).toList with
  | nil => exact absurd hsm (splitSM_ne_nil _ _ _ _)
  | cons p0 ps =>
    have hss : splitSentences (pyStrip desc) =
        p0.asString :: ps.map List.asString := by
      unfold splitSentences
      rw [hsm]
      rfl
    have hgl : get_lead desc =
        (if pyStrip p0.asString = "" then pyStrip (pyTake desc 300)
         else pyStrip p0.asString) := by
      unfold get_lead
      simp only [hss]
    rw [hgl, hss]
    simp only [List.headD_cons]
    by_cases h0 : pyStrip p0.asString = ""
    · rw [if_pos h0, if_pos h0]
      have hnil : pyStripL p0 = [] := congrArg String.toList h0
      have hall : ∀ c ∈ desc.toList, pyIsSpace c = true := by
        intro c0 hc0
        by_contra hcc
        have hc0s : pyIsSpace c0 = false := Bool.of_not_eq_true hcc
        cases hstr : pyStripL desc.toList with
        | nil => exact pyStripL_ne_nil hc0 hc0s hstr
        | cons d ds =>
            have hd : pyIsSpace d = false := pyStripL_head_not_space hstr
            have htl : (pyStrip desc).toList = d :: ds := hstr
            rw [htl] at hsm
            have hstep : splitSM none [] false (d :: ds) =
                splitSM (some d) [d] false ds := by
              simp [splitSM, hd, sentEnd]
            rw [hstep] at hsm
            obtain ⟨t1, ht1⟩ := splitSM_head_append ds (some d) [d]
            rw [hsm] at ht1
            simp only [List.headD_cons, List.reverse_cons, List.reverse_nil,
              List.nil_append, List.singleton_append] at ht1
            have hdp0 : d ∈ p0 := by
              rw [ht1]
              exact List.mem_cons_self _ _
            exact pyStripL_ne_nil hdp0 hd hnil
      have h1 : pyStrip (pyTake desc 300) = "" := by
        have h1a : pyStripL (desc.toList.take 300) = [] :=
          pyStripL_eq_nil_of_all_space
            (fun c hc => hall c (List.mem_of_mem_take hc))
        show (pyStripL (desc.toList.take 300)).asString = ""
        rw [h1a]
        rfl
      have h2 : pyTake (pyStrip desc) 300 = "" := by
        have hds : (pyStrip desc).toList = [] :=
          pyStripL_eq_nil_of_all_space hall
        show ((pyStrip desc).toList.take 300).asString = ""
        rw [hds]
        rfl
      rw [h1, h2]
    · rw [if_neg h0, if_neg h0]
